import Mathlib

/-!
Shallow embedding of hzeller/rpt2paste: the pad-collecting state machine, the
bounding-box computation and the render loop of src/main.cc, together with the
route-optimizer interface of src/rpt2paste.h.  Machine floats are modelled as
exact reals.
-/

/-- The `struct Pad` of src/main.cc lines 93-98.  The default constructor
zeroes all fields. -/
structure Pad where
  x : ℝ
  y : ℝ
  drill : ℝ
  area : ℝ

/-- The `Pad()` default constructor: all fields 0. -/
def Pad.init : Pad := ⟨0, 0, 0, 0⟩

/-- The `coordinate_factor` of src/main.cc line 18: inches to millimeters. -/
noncomputable def coordinate_factor : ℝ := 25.4

/-- The event vocabulary delivered by the parser (src/rpt-parser.cc) to a
`ParseEventReceiver`. -/
inductive Event where
  | componentStart
  | componentEnd
  | padStart
  | padEnd
  | position (x y : ℝ)
  | size (w h : ℝ)
  | drill (d : ℝ)
  | orientation (angle : ℝ)

/-- The mutable fields of `PadCollector` (src/main.cc lines 101-164):
component context origin and rotation angle, the currently open pad (NULL
modelled as `none`), and the accepted pad list in push-back order. -/
structure CState where
  origin_x : ℝ
  origin_y : ℝ
  angle : ℝ
  current_pad : Option Pad
  collected : List Pad

/-- The ways a run of the collector can die: the `assert(current_pad_ == NULL)`
in `StartComponent`, the `assert(current_pad_ != NULL)` in `Drill`, and the
NULL-pointer dereference `current_pad_->drill` in `EndPad` when no pad is
open. -/
inductive Err where
  | componentStartAssert
  | drillAssert
  | endPadNull
deriving DecidableEq

/-- The method `PadCollector::rotateXY` (src/main.cc lines 149-154): plain 2D
rotation of `(x, y)` by `angle` about the origin. -/
noncomputable def rotateXY (angle x y : ℝ) : ℝ × ℝ :=
  (x * Real.cos angle - y * Real.sin angle, x * Real.sin angle + y * Real.cos angle)

/-- One event dispatched through the `PadCollector` virtual methods
(src/main.cc lines 106-146).  Assertion failures and the NULL dereference are
modelled as `Except.error`. -/
noncomputable def step (st : CState) : Event → Except Err CState
  | Event.componentStart =>
      match st.current_pad with
      | none => Except.ok st
      | some _ => Except.error Err.componentStartAssert
  | Event.componentEnd => Except.ok st
  | Event.padStart => Except.ok { st with current_pad := some Pad.init }
  | Event.padEnd =>
      match st.current_pad with
      | none => Except.error Err.endPadNull
      | some p =>
          if p.drill ≠ 0 then
            Except.ok { st with current_pad := none }
          else
            Except.ok { st with current_pad := none, collected := st.collected ++ [p] }
  | Event.position x y =>
      match st.current_pad with
      | some p =>
          Except.ok { st with current_pad := some { p with
            x := (st.origin_x + (rotateXY st.angle x y).1) * coordinate_factor,
            y := (st.origin_y + (rotateXY st.angle x y).2) * coordinate_factor } }
      | none => Except.ok { st with origin_x := x, origin_y := y }
  | Event.size w h =>
      match st.current_pad with
      | none => Except.ok st
      | some p =>
          Except.ok { st with current_pad := some { p with
            area := w * coordinate_factor * coordinate_factor * h } }
  | Event.drill d =>
      match st.current_pad with
      | none => Except.error Err.drillAssert
      | some p => Except.ok { st with current_pad := some { p with drill := d } }
  | Event.orientation a =>
      match st.current_pad with
      | none => Except.ok { st with angle := -Real.pi * a / 180 }
      | some _ => Except.ok st

/-- Feed a list of events through the collector, stopping at the first
failure. -/
noncomputable def run (st : CState) : List Event → Except Err CState
  | [] => Except.ok st
  | e :: es =>
      match step st e with
      | Except.ok st2 => run st2 es
      | Except.error err => Except.error err

/-- The collector right after construction (src/main.cc lines 103-104): origin
(0,0), no open pad, empty list.  The constructor leaves `angle_`
uninitialized, so the initial angle is a parameter `a0` standing for the
indeterminate value. -/
noncomputable def initState (a0 : ℝ) : CState :=
  ⟨0, 0, a0, none, []⟩

/-- The min/max sweep of src/main.cc lines 200-207, producing
`(min_x, min_y, max_x, max_y)`.  The C++ seeds the sweep with `pads[0]`
unconditionally; on an empty vector that read is out of bounds (undefined
behavior, no empty-input condition is reported), modelled as `none`. -/
noncomputable def mainBoundingBox (pads : List Pad) : Option (ℝ × ℝ × ℝ × ℝ) :=
  match pads with
  | [] => none
  | p0 :: _ =>
      some (pads.foldl
        (fun acc p => (min acc.1 p.x, min acc.2.1 p.y, max acc.2.2.1 p.x, max acc.2.2.2 p.y))
        (p0.x, p0.y, p0.x, p0.y))

/-- The order in which src/main.cc lines 218-225 hand pads to the printer: the
loop walks `pads[0] .. pads[n-1]` in collection order, i.e. the identity
permutation of indices.  `OptimizePads` (declared src/rpt2paste.h lines 14-16)
is never invoked there. -/
def renderIndices (pads : List Pad) : List ℕ :=
  List.range pads.length

/-- Squared Euclidean distance between two pad positions.  Strict comparison
of squared distances is equivalent to strict comparison of the Euclidean
distances themselves, so nearest-neighbor selection uses it. -/
noncomputable def dist2 (a b : Pad) : ℝ :=
  (a.x - b.x) ^ 2 + (a.y - b.y) ^ 2

/-- Euclidean distance between two pad positions. -/
noncomputable def padDist (a b : Pad) : ℝ :=
  Real.sqrt (dist2 a b)

/-- Pad lookup by index, with the zero pad as out-of-range default. -/
def padAt (pads : List Pad) (i : ℕ) : Pad :=
  pads.getD i Pad.init

/-- Total open-path length of a route: sum of Euclidean distances between
consecutive visited pads. -/
noncomputable def pathLen (pads : List Pad) (route : List ℕ) : ℝ :=
  (route.zip route.tail).foldl
    (fun acc ij => acc + padDist (padAt pads ij.1) (padAt pads ij.2)) 0

/-- Scan an indexed list for the first element minimizing the order given by
`better` (`better p q` = `p` strictly beats `q`); return it together with the
remaining elements in their original order.  Ties keep the earlier element,
so the lowest index wins. -/
def pickMin (better : Pad → Pad → Bool) : List (ℕ × Pad) → Option ((ℕ × Pad) × List (ℕ × Pad))
  | [] => none
  | x :: rest =>
      match pickMin better rest with
      | none => some (x, [])
      | some (b, others) =>
          if better b.2 x.2 then some (b, x :: others) else some (x, rest)

/-- Modelled from the spec: the nearest-neighbor start selection of §4.4 —
"start from the pad with the lowest (y, then x) coordinate (deterministic
tie-break)".  (`OptimizePads` is only declared in src/rpt2paste.h; its
implementation is not part of the repository sources.) -/
noncomputable def startBetter (p q : Pad) : Bool :=
  decide (p.y < q.y ∨ (p.y = q.y ∧ p.x < q.x))

/-- Modelled from the spec: "nearest" comparison for nearest-neighbor
selection, via squared Euclidean distance (strictly closer to `cur`). -/
noncomputable def nearerTo (cur p q : Pad) : Bool :=
  decide (dist2 cur p < dist2 cur q)

/-- Modelled from the spec: the nearest-neighbor construction loop of §4.4 —
"repeatedly append the nearest not-yet-visited pad to the current path end",
lowest index winning ties.  `fuel` bounds the recursion; with
`fuel = remaining.length` every element is consumed one per step, and on fuel
exhaustion the remaining indices are appended so the index set is preserved. -/
noncomputable def nnBuild : Pad → List (ℕ × Pad) → ℕ → List ℕ
  | _, remaining, 0 => remaining.map Prod.fst
  | cur, remaining, fuel + 1 =>
      match pickMin (nearerTo cur) remaining with
      | none => []
      | some (b, rest) => b.1 :: nnBuild b.2 rest fuel

/-- Modelled from the spec: phase 1 of §4.4, the full nearest-neighbor
construction over the indexed pad list. -/
noncomputable def nearestNeighborRoute (pads : List Pad) : List ℕ :=
  match pickMin startBetter pads.enum with
  | none => []
  | some (b, rest) => b.1 :: nnBuild b.2 rest pads.length

/-- Reverse the contiguous segment `route[i..j]` (inclusive), the 2-opt move. -/
def reverseSegment (route : List ℕ) (i j : ℕ) : List ℕ :=
  route.take i ++ ((route.drop i).take (j + 1 - i)).reverse ++ route.drop (j + 1)

/-- All segment endpoint pairs `(i, j)` with `i < j < n`, in the fixed scan
order required by the determinism clause of §4.4. -/
def allPairs (n : ℕ) : List (ℕ × ℕ) :=
  (((List.range n).map (fun i => (List.range n).map (fun j => (i, j)))).flatten).filter
    (fun p => decide (p.1 < p.2))

/-- Modelled from the spec: one 2-opt scan of §4.4 — try each edge pair in
order and return the first segment reversal that strictly reduces total path
length, or `none` when no improving pair exists. -/
noncomputable def tryPairs (pads : List Pad) (route : List ℕ) : List (ℕ × ℕ) → Option (List ℕ)
  | [] => none
  | ij :: rest =>
      if pathLen pads (reverseSegment route ij.1 ij.2) < pathLen pads route then
        some (reverseSegment route ij.1 ij.2)
      else
        tryPairs pads route rest

/-- Modelled from the spec: the bounded 2-opt improvement loop of §4.4 —
"iterate until no improving pair is found or an iteration cap is reached". -/
noncomputable def twoOptLoop (pads : List Pad) : List ℕ → ℕ → List ℕ
  | route, 0 => route
  | route, fuel + 1 =>
      match tryPairs pads route (allPairs route.length) with
      | none => route
      | some r2 => twoOptLoop pads r2 fuel

/-- The 2-opt iteration cap of §4.4 (a fixed bound; exceeding it just stops
early with the best-found order). -/
def twoOptCap : ℕ := 1000

/-- Modelled from the spec: `OptimizePads` (declared src/rpt2paste.h lines
14-16, no implementation in the repository), reconstructed from §4.4 as
nearest-neighbor construction followed by bounded 2-opt improvement; returns
the visiting order as a list of indices into the pad list. -/
noncomputable def optimizePadsSpec (pads : List Pad) : List ℕ :=
  twoOptLoop pads (nearestNeighborRoute pads) twoOptCap

/-- The well-scopedness precondition on event streams used by claim C10:
every `Drill` event occurs between a `PadStart` and its `PadEnd`.  The flag
tracks whether a pad is currently open. -/
def drillsScoped : Bool → List Event → Bool
  | _, [] => true
  | _, Event.padStart :: es => drillsScoped true es
  | _, Event.padEnd :: es => drillsScoped false es
  | b, Event.drill _ :: es => b && drillsScoped b es
  | b, _ :: es => drillsScoped b es

/-! Small stepping lemmas, one per virtual-method branch of the collector. -/

lemma step_componentStart_none {st : CState} (h : st.current_pad = none) :
    step st Event.componentStart = Except.ok st := by
  simp [step, h]

lemma step_componentStart_some {st : CState} {p : Pad} (h : st.current_pad = some p) :
    step st Event.componentStart = Except.error Err.componentStartAssert := by
  simp [step, h]

lemma step_componentEnd (st : CState) : step st Event.componentEnd = Except.ok st := rfl

lemma step_padStart (st : CState) :
    step st Event.padStart = Except.ok { st with current_pad := some Pad.init } := rfl

lemma step_padEnd_none {st : CState} (h : st.current_pad = none) :
    step st Event.padEnd = Except.error Err.endPadNull := by
  simp [step, h]

lemma step_padEnd_accept {st : CState} {p : Pad} (h : st.current_pad = some p)
    (hd : p.drill = 0) :
    step st Event.padEnd
      = Except.ok { st with current_pad := none, collected := st.collected ++ [p] } := by
  simp [step, h, hd]

lemma step_padEnd_discard {st : CState} {p : Pad} (h : st.current_pad = some p)
    (hd : p.drill ≠ 0) :
    step st Event.padEnd = Except.ok { st with current_pad := none } := by
  simp [step, h, hd]

lemma step_position_some {st : CState} {p : Pad} {x y : ℝ} (h : st.current_pad = some p) :
    step st (Event.position x y) = Except.ok { st with current_pad := some { p with
      x := (st.origin_x + (rotateXY st.angle x y).1) * coordinate_factor,
      y := (st.origin_y + (rotateXY st.angle x y).2) * coordinate_factor } } := by
  simp [step, h]

lemma step_position_none {st : CState} {x y : ℝ} (h : st.current_pad = none) :
    step st (Event.position x y) = Except.ok { st with origin_x := x, origin_y := y } := by
  simp [step, h]

lemma step_size_none {st : CState} {w h : ℝ} (hc : st.current_pad = none) :
    step st (Event.size w h) = Except.ok st := by
  simp [step, hc]

lemma step_size_some {st : CState} {p : Pad} {w h : ℝ} (hc : st.current_pad = some p) :
    step st (Event.size w h) = Except.ok { st with current_pad := some { p with
      area := w * coordinate_factor * coordinate_factor * h } } := by
  simp [step, hc]

lemma step_drill_none {st : CState} {d : ℝ} (h : st.current_pad = none) :
    step st (Event.drill d) = Except.error Err.drillAssert := by
  simp [step, h]

lemma step_drill_some {st : CState} {p : Pad} {d : ℝ} (h : st.current_pad = some p) :
    step st (Event.drill d) = Except.ok { st with current_pad := some { p with drill := d } } := by
  simp [step, h]

lemma step_orientation_none {st : CState} {a : ℝ} (h : st.current_pad = none) :
    step st (Event.orientation a) = Except.ok { st with angle := -Real.pi * a / 180 } := by
  simp [step, h]

lemma step_orientation_some {st : CState} {p : Pad} {a : ℝ} (h : st.current_pad = some p) :
    step st (Event.orientation a) = Except.ok st := by
  simp [step, h]

/-- A successful step only ever appends a zero-drill pad to the accepted
list. -/
lemma step_collected_drill {st st2 : CState} {e : Event}
    (h : step st e = Except.ok st2)
    (inv : ∀ p ∈ st.collected, p.drill = 0) :
    ∀ p ∈ st2.collected, p.drill = 0 := by
  cases e with
  | componentStart =>
      cases hc : st.current_pad with
      | none => rw [step_componentStart_none hc] at h; cases h; exact inv
      | some p => rw [step_componentStart_some hc] at h; cases h
  | componentEnd => rw [step_componentEnd] at h; cases h; exact inv
  | padStart => rw [step_padStart] at h; cases h; exact inv
  | padEnd =>
      cases hc : st.current_pad with
      | none => rw [step_padEnd_none hc] at h; cases h
      | some p =>
          by_cases hd : p.drill = 0
          · rw [step_padEnd_accept hc hd] at h
            cases h
            intro q hq
            rcases List.mem_append.mp hq with hq | hq
            · exact inv q hq
            · rcases List.mem_singleton.mp hq with rfl
              exact hd
          · rw [step_padEnd_discard hc hd] at h; cases h; exact inv
  | position x y =>
      cases hc : st.current_pad with
      | none => rw [step_position_none hc] at h; cases h; exact inv
      | some p => rw [step_position_some hc] at h; cases h; exact inv
  | size w hgt =>
      cases hc : st.current_pad with
      | none => rw [step_size_none hc] at h; cases h; exact inv
      | some p => rw [step_size_some hc] at h; cases h; exact inv
  | drill d =>
      cases hc : st.current_pad with
      | none => rw [step_drill_none hc] at h; cases h
      | some p => rw [step_drill_some hc] at h; cases h; exact inv
  | orientation a =>
      cases hc : st.current_pad with
      | none => rw [step_orientation_none hc] at h; cases h; exact inv
      | some p => rw [step_orientation_some hc] at h; cases h; exact inv

/-- The zero-drill invariant of the accepted list is preserved by whole runs. -/
lemma run_collected_drill :
    ∀ (evs : List Event) (st st2 : CState),
      run st evs = Except.ok st2 → (∀ p ∈ st.collected, p.drill = 0) →
      ∀ p ∈ st2.collected, p.drill = 0 := by
  intro evs
  induction evs with
  | nil =>
      intro st st2 h inv
      rw [run] at h
      cases h
      exact inv
  | cons e es ih =>
      intro st st2 h inv
      rw [run] at h
      cases hs : step st e with
      | ok stm =>
          rw [hs] at h
          exact ih stm st2 h (step_collected_drill hs inv)
      | error err => rw [hs] at h; cases h

/-- C1: every pad the collector appends to the accepted list has drill
diameter 0 — for every event stream, every pad in the accepted list of a
successful run has `drill = 0`; and a pad whose drill field is nonzero at its
PadEnd event is discarded: the accepted list is left unchanged. -/
theorem c1_accepted_pads_drill_zero :
    (∀ (evs : List Event) (a0 : ℝ) (st : CState) (p : Pad),
        run (initState a0) evs = Except.ok st → p ∈ st.collected → p.drill = 0) ∧
    (∀ (st : CState) (p : Pad), st.current_pad = some p → p.drill ≠ 0 →
        step st Event.padEnd = Except.ok { st with current_pad := none }) := by
  constructor
  · intro evs a0 st p hrun hp
    exact run_collected_drill evs (initState a0) st hrun (by simp [initState]) p hp
  · intro st p hc hd
    exact step_padEnd_discard hc hd

/-- C1 witness: the concrete stream [PadStart, PadEnd] accepts one pad, and
the theorem yields that its drill is 0; the concrete state with a pad of
drill 0.8 open discards it on PadEnd. -/
theorem c1_accepted_pads_drill_zero_witness :
    (run (initState 0) [Event.padStart, Event.padEnd]
        = Except.ok (⟨0, 0, 0, none, [Pad.init]⟩ : CState) ∧
      Pad.init.drill = 0) ∧
    ((⟨0, 0, 0, some ⟨1, 2, 0.8, 0⟩, []⟩ : CState).current_pad = some ⟨1, 2, 0.8, 0⟩ ∧
      (0.8 : ℝ) ≠ 0 ∧
      step (⟨0, 0, 0, some ⟨1, 2, 0.8, 0⟩, []⟩ : CState) Event.padEnd
        = Except.ok (⟨0, 0, 0, none, []⟩ : CState)) := by
  have hrun : run (initState 0) [Event.padStart, Event.padEnd]
      = Except.ok (⟨0, 0, 0, none, [Pad.init]⟩ : CState) := by
    simp [run, step, initState, Pad.init]
  refine ⟨⟨hrun, ?_⟩, rfl, by norm_num, ?_⟩
  · exact c1_accepted_pads_drill_zero.1 [Event.padStart, Event.padEnd] 0 _ Pad.init hrun
      (by simp)
  · exact c1_accepted_pads_drill_zero.2 (⟨0, 0, 0, some ⟨1, 2, 0.8, 0⟩, []⟩ : CState)
      ⟨1, 2, 0.8, 0⟩ rfl (by norm_num)

/-- C2: a Position(x,y) event with a pad open stores the local offset rotated
by the context rotation, translated by the context origin, and scaled by
25.4; and on the concrete stream with origin (10,10), input angle 90 degrees
and local offset (1,0) the accepted pad position is (254, 228.6). -/
theorem c2_position_transform :
    (∀ (st : CState) (p : Pad) (x y : ℝ), st.current_pad = some p →
        step st (Event.position x y) = Except.ok { st with current_pad := some { p with
          x := (st.origin_x + (x * Real.cos st.angle - y * Real.sin st.angle))
                 * coordinate_factor,
          y := (st.origin_y + (x * Real.sin st.angle + y * Real.cos st.angle))
                 * coordinate_factor } }) ∧
    run (initState 0)
        [Event.componentStart, Event.position 10 10, Event.orientation 90,
         Event.padStart, Event.position 1 0, Event.padEnd]
      = Except.ok (⟨10, 10, -Real.pi * 90 / 180, none, [⟨254, 228.6, 0, 0⟩]⟩ : CState) := by
  constructor
  · intro st p x y hc
    rw [step_position_some hc]
    rfl
  · have hcos : Real.cos (-Real.pi * 90 / 180) = 0 := by
      have h1 : -Real.pi * 90 / 180 = -(Real.pi / 2) := by ring
      rw [h1, Real.cos_neg, Real.cos_pi_div_two]
    have hsin : Real.sin (-Real.pi * 90 / 180) = -1 := by
      have h1 : -Real.pi * 90 / 180 = -(Real.pi / 2) := by ring
      rw [h1, Real.sin_neg, Real.sin_pi_div_two]
    simp only [run, step, initState, rotateXY, Pad.init, coordinate_factor, hcos, hsin]
    norm_num

/-- C2 witness: the general transform statement applied at the concrete state
with origin (10,10), rotation 0 and an open zeroed pad, for local offset
(1,0). -/
theorem c2_position_transform_witness :
    (⟨10, 10, 0, some Pad.init, []⟩ : CState).current_pad = some Pad.init ∧
    step (⟨10, 10, 0, some Pad.init, []⟩ : CState) (Event.position 1 0)
      = Except.ok (⟨10, 10, 0,
          some ⟨(10 + (1 * Real.cos 0 - 0 * Real.sin 0)) * coordinate_factor,
                (10 + (1 * Real.sin 0 + 0 * Real.cos 0)) * coordinate_factor, 0, 0⟩,
          []⟩ : CState) :=
  ⟨rfl, c2_position_transform.1 (⟨10, 10, 0, some Pad.init, []⟩ : CState) Pad.init 1 0 rfl⟩

/-- C8: an Orientation(angle) event received with no pad open sets the stored
context rotation to exactly −π·angle/180 radians and changes nothing else —
no pad is opened or closed and origin and accepted list are untouched. -/
theorem c8_orientation_sets_negated_angle (st : CState) (a : ℝ)
    (h : st.current_pad = none) :
    step st (Event.orientation a) = Except.ok { st with angle := -Real.pi * a / 180 } :=
  step_orientation_none h

/-- C8 witness: the theorem applied at the freshly constructed collector and a
90 degree orientation event. -/
theorem c8_orientation_sets_negated_angle_witness :
    (initState 0).current_pad = none ∧
    step (initState 0) (Event.orientation 90)
      = Except.ok { initState 0 with angle := -Real.pi * 90 / 180 } :=
  ⟨rfl, c8_orientation_sets_negated_angle (initState 0) 90 rfl⟩

/-- C9: for every point (x,y) and every angle θ, applying `rotateXY` with θ
and then with −θ recovers the original point, over exact real arithmetic. -/
theorem c9_rotation_invertible (x y θ : ℝ) :
    rotateXY (-θ) (rotateXY θ x y).1 (rotateXY θ x y).2 = (x, y) := by
  have hpyth := Real.sin_sq_add_cos_sq θ
  simp only [rotateXY, Real.cos_neg, Real.sin_neg, Prod.mk.injEq]
  constructor
  · linear_combination x * hpyth
  · linear_combination y * hpyth

/-- C3 counterexample: ComponentStart does not initialize a fresh context.
With context origin (5,7) left over, ComponentStart returns the state
unchanged — origin stays (5,7), not (0,0) — and on a concrete stream the
leftover origin from the first component shifts the pad of the second component to
(127, 177.8) instead of the (0,0) a fresh context would give. -/
theorem c3_componentStart_counterexample :
    step (⟨5, 7, 0, none, []⟩ : CState) Event.componentStart
      = Except.ok (⟨5, 7, 0, none, []⟩ : CState) ∧
    (5 : ℝ) ≠ 0 ∧
    run (initState 0)
        [Event.componentStart, Event.position 5 7, Event.componentEnd,
         Event.componentStart, Event.padStart, Event.position 0 0, Event.padEnd]
      = Except.ok (⟨5, 7, 0, none, [⟨127, 177.8, 0, 0⟩]⟩ : CState) ∧
    (127 : ℝ) ≠ 0 := by
  refine ⟨rfl, by norm_num, ?_, by norm_num⟩
  simp only [run, step, initState, rotateXY, Pad.init, coordinate_factor]
  norm_num

/-- C3 (amended): only the constructor zeroes the context origin;
ComponentStart merely asserts that no pad is open and leaves origin and
rotation unchanged, so context values left over from a previous component
persist until overwritten by Position/Orientation events of the next
component. -/
theorem c3_componentStart_keeps_context :
    (∀ a0 : ℝ, (initState a0).origin_x = 0 ∧ (initState a0).origin_y = 0) ∧
    (∀ st : CState, st.current_pad = none →
        step st Event.componentStart = Except.ok st) :=
  ⟨fun _ => ⟨rfl, rfl⟩, fun _ h => step_componentStart_none h⟩

/-- C3 witness: the amended theorem applied at a concrete state carrying a
leftover origin (5,7). -/
theorem c3_componentStart_keeps_context_witness :
    (initState 0).origin_x = 0 ∧ (initState 0).origin_y = 0 ∧
    (⟨5, 7, 0, none, []⟩ : CState).current_pad = none ∧
    step (⟨5, 7, 0, none, []⟩ : CState) Event.componentStart
      = Except.ok (⟨5, 7, 0, none, []⟩ : CState) :=
  ⟨(c3_componentStart_keeps_context.1 0).1, (c3_componentStart_keeps_context.1 0).2,
    rfl, c3_componentStart_keeps_context.2 (⟨5, 7, 0, none, []⟩ : CState) rfl⟩

/-- C4 counterexample: PadStart while a pad is already open is not fatal —
the stream [ComponentStart, PadStart, PadStart, PadEnd] runs to completion
without any invariant violation and even accepts one pad. -/
theorem c4_nested_padStart_counterexample :
    run (initState 0)
        [Event.componentStart, Event.padStart, Event.padStart, Event.padEnd]
      = Except.ok (⟨0, 0, 0, none, [Pad.init]⟩ : CState) := by
  simp [run, step, initState, Pad.init]

/-- C4 (amended): PadStart while a pad is already open silently replaces
(leaks) the open pad with a fresh zeroed pad and processing continues; the
assertion that does fire on an open pad is the one in ComponentStart,
`assert(current_pad_ == NULL)`, not one in PadStart. -/
theorem c4_nested_padStart_replaces (st : CState) (p : Pad)
    (h : st.current_pad = some p) :
    step st Event.padStart = Except.ok { st with current_pad := some Pad.init } ∧
    step st Event.componentStart = Except.error Err.componentStartAssert :=
  ⟨step_padStart st, step_componentStart_some h⟩

/-- C4 witness: the amended theorem applied at a concrete state whose open pad
is nonzero, showing it is discarded in favor of a fresh zeroed pad. -/
theorem c4_nested_padStart_replaces_witness :
    (⟨0, 0, 0, some ⟨1, 2, 3, 4⟩, []⟩ : CState).current_pad = some ⟨1, 2, 3, 4⟩ ∧
    step (⟨0, 0, 0, some ⟨1, 2, 3, 4⟩, []⟩ : CState) Event.padStart
      = Except.ok (⟨0, 0, 0, some Pad.init, []⟩ : CState) ∧
    step (⟨0, 0, 0, some ⟨1, 2, 3, 4⟩, []⟩ : CState) Event.componentStart
      = Except.error Err.componentStartAssert := by
  have h := c4_nested_padStart_replaces (⟨0, 0, 0, some ⟨1, 2, 3, 4⟩, []⟩ : CState)
    ⟨1, 2, 3, 4⟩ rfl
  exact ⟨rfl, h.1, h.2⟩

/-- C5: on the empty accepted-pad list the min/max sweep of main() has no
defined result: the C++ seeds it with `pads[0]`, an out-of-bounds read
(undefined behavior, modelled as `none`); main() reports no empty-input
condition and proceeds to render unconditionally. -/
theorem c5_empty_pad_list_bbox_undefined : mainBoundingBox [] = none := rfl

/-- C7 counterexample: a Position event received before any ComponentStart is
not a no-op — it overwrites the context origin, and through it the position of
a later accepted pad, which lands at (127, 177.8) instead of being
unaffected. -/
theorem c7_idle_position_counterexample :
    step (initState 0) (Event.position 5 7) ≠ Except.ok (initState 0) ∧
    run (initState 0)
        [Event.position 5 7, Event.componentStart, Event.padStart,
         Event.position 0 0, Event.padEnd]
      = Except.ok (⟨5, 7, 0, none, [⟨127, 177.8, 0, 0⟩]⟩ : CState) := by
  constructor
  · simp only [step, initState]
    intro h
    rw [Except.ok.injEq, CState.mk.injEq] at h
    exact absurd h.1 (by norm_num)
  · simp only [run, step, initState, rotateXY, Pad.init, coordinate_factor]
    norm_num

/-- C7 (amended): Position and Orientation events received with no pad open
always update the component context, also before any ComponentStart — the
collector does not track whether a component is open, so such events are not
ignored and do affect later accepted pads. -/
theorem c7_idle_events_update_context (st : CState) (x y a : ℝ)
    (h : st.current_pad = none) :
    step st (Event.position x y) = Except.ok { st with origin_x := x, origin_y := y } ∧
    step st (Event.orientation a) = Except.ok { st with angle := -Real.pi * a / 180 } :=
  ⟨step_position_none h, step_orientation_none h⟩

/-- C7 witness: the amended theorem applied at the freshly constructed
collector (no ComponentStart seen), with a (5,7) position and a 45 degree
orientation. -/
theorem c7_idle_events_update_context_witness :
    (initState 0).current_pad = none ∧
    step (initState 0) (Event.position 5 7)
      = Except.ok { initState 0 with origin_x := 5, origin_y := 7 } ∧
    step (initState 0) (Event.orientation 45)
      = Except.ok { initState 0 with angle := -Real.pi * 45 / 180 } := by
  have h := c7_idle_events_update_context (initState 0) 5 7 45 rfl
  exact ⟨rfl, h.1, h.2⟩

/-- When every Drill event of the stream sits between a PadStart and its
PadEnd (tracked by the boolean flag, which mirrors whether a pad is open), no
run can end in the Drill assertion — each Drill executes with a pad open, and
every other failure mode is a different error. -/
lemma run_no_drill_assert :
    ∀ (evs : List Event) (b : Bool) (st : CState),
      drillsScoped b evs = true → (b = true → ∃ p, st.current_pad = some p) →
      run st evs ≠ Except.error Err.drillAssert := by
  intro evs
  induction evs with
  | nil =>
      intro b st _ _
      rw [run]
      intro h
      cases h
  | cons e es ih =>
      intro b st hscope hinv
      rw [run]
      cases e with
      | componentStart =>
          cases hc : st.current_pad with
          | none =>
              rw [step_componentStart_none hc]
              exact ih b st (by simpa [drillsScoped] using hscope) hinv
          | some p =>
              rw [step_componentStart_some hc]
              intro h
              cases h
      | componentEnd =>
          rw [step_componentEnd]
          exact ih b st (by simpa [drillsScoped] using hscope) hinv
      | padStart =>
          rw [step_padStart]
          exact ih true _ (by simpa [drillsScoped] using hscope)
            (fun _ => ⟨Pad.init, rfl⟩)
      | padEnd =>
          cases hc : st.current_pad with
          | none =>
              rw [step_padEnd_none hc]
              intro h
              cases h
          | some p =>
              by_cases hd : p.drill = 0
              · rw [step_padEnd_accept hc hd]
                exact ih false _ (by simpa [drillsScoped] using hscope)
                  (fun h => absurd h (by simp))
              · rw [step_padEnd_discard hc hd]
                exact ih false _ (by simpa [drillsScoped] using hscope)
                  (fun h => absurd h (by simp))
      | position x y =>
          cases hc : st.current_pad with
          | none =>
              rw [step_position_none hc]
              refine ih b _ (by simpa [drillsScoped] using hscope) ?_
              intro hb
              rcases hinv hb with ⟨p, hp⟩
              rw [hc] at hp
              cases hp
          | some p =>
              rw [step_position_some hc]
              exact ih b _ (by simpa [drillsScoped] using hscope)
                (fun _ => ⟨_, rfl⟩)
      | size w hgt =>
          cases hc : st.current_pad with
          | none =>
              rw [step_size_none hc]
              exact ih b st (by simpa [drillsScoped] using hscope) hinv
          | some p =>
              rw [step_size_some hc]
              exact ih b _ (by simpa [drillsScoped] using hscope)
                (fun _ => ⟨_, rfl⟩)
      | drill d =>
          have hb : b = true ∧ drillsScoped b es = true := by
            simpa [drillsScoped] using hscope
          rcases hinv hb.1 with ⟨p, hp⟩
          rw [step_drill_some hp]
          exact ih b _ (by simpa using hb.2) (fun _ => ⟨_, rfl⟩)
      | orientation a =>
          cases hc : st.current_pad with
          | none =>
              rw [step_orientation_none hc]
              refine ih b _ (by simpa [drillsScoped] using hscope) ?_
              intro hb
              rcases hinv hb with ⟨p, hp⟩
              rw [hc] at hp
              cases hp
          | some p =>
              rw [step_orientation_some hc]
              exact ih b st (by simpa [drillsScoped] using hscope) hinv

/-- C10: a Drill(d) event received with no pad open fails the collector
assertion (a fatal error, not an ignored event); and under the precondition
that every Drill event of the stream occurs between a PadStart and its
PadEnd, no run ever ends in that assertion failure — the branch is
unreachable. -/
theorem c10_drill_assert_unreachable_when_scoped :
    (∀ (st : CState) (d : ℝ), st.current_pad = none →
        step st (Event.drill d) = Except.error Err.drillAssert) ∧
    (∀ (evs : List Event) (a0 : ℝ), drillsScoped false evs = true →
        run (initState a0) evs ≠ Except.error Err.drillAssert) := by
  constructor
  · intro st d h
    exact step_drill_none h
  · intro evs a0 hscope
    exact run_no_drill_assert evs false (initState a0) hscope
      (fun h => absurd h (by simp))

/-- C10 witness: a Drill at the freshly constructed collector fails the
assertion, and the concrete well-scoped stream [PadStart, Drill 1, PadEnd]
satisfies the precondition and never hits it. -/
theorem c10_drill_assert_unreachable_witness :
    ((initState 0).current_pad = none ∧
      step (initState 0) (Event.drill 1) = Except.error Err.drillAssert) ∧
    (drillsScoped false [Event.padStart, Event.drill 1, Event.padEnd] = true ∧
      run (initState 0) [Event.padStart, Event.drill 1, Event.padEnd]
        ≠ Except.error Err.drillAssert) :=
  ⟨⟨rfl, c10_drill_assert_unreachable_when_scoped.1 (initState 0) 1 rfl⟩,
    ⟨rfl, c10_drill_assert_unreachable_when_scoped.2
      [Event.padStart, Event.drill 1, Event.padEnd] 0 rfl⟩⟩

/-! Permutation lemmas for the spec-modelled route optimizer. -/

lemma pickMin_eq_none {f : Pad → Pad → Bool} {l : List (ℕ × Pad)}
    (h : pickMin f l = none) : l = [] := by
  cases l with
  | nil => rfl
  | cons x rest =>
      rw [pickMin] at h
      cases hp : pickMin f rest with
      | none =>
          simp only [hp] at h
          exact Option.noConfusion h
      | some val =>
          obtain ⟨b, others⟩ := val
          simp only [hp] at h
          by_cases hb : f b.2 x.2
          · rw [if_pos hb] at h; cases h
          · rw [if_neg hb] at h; cases h

lemma pickMin_perm {f : Pad → Pad → Bool} :
    ∀ {l : List (ℕ × Pad)} {b : ℕ × Pad} {rest : List (ℕ × Pad)},
      pickMin f l = some (b, rest) → (b :: rest).Perm l := by
  intro l
  induction l with
  | nil => intro b rest h; cases h
  | cons x xs ih =>
      intro b rest h
      rw [pickMin] at h
      cases hp : pickMin f xs with
      | none =>
          simp only [hp, Option.some.injEq, Prod.mk.injEq] at h
          obtain ⟨rfl, rfl⟩ := h
          have hxs := pickMin_eq_none hp
          subst hxs
          exact List.Perm.refl _
      | some val =>
          obtain ⟨c, others⟩ := val
          simp only [hp] at h
          by_cases hb : f c.2 x.2
          · rw [if_pos hb, Option.some.injEq, Prod.mk.injEq] at h
            obtain ⟨rfl, rfl⟩ := h
            exact (List.Perm.swap x c others).trans ((ih hp).cons x)
          · rw [if_neg hb, Option.some.injEq, Prod.mk.injEq] at h
            obtain ⟨rfl, rfl⟩ := h
            exact List.Perm.refl _

lemma nnBuild_perm :
    ∀ (fuel : ℕ) (cur : Pad) (remaining : List (ℕ × Pad)),
      (nnBuild cur remaining fuel).Perm (remaining.map Prod.fst) := by
  intro fuel
  induction fuel with
  | zero =>
      intro cur remaining
      rw [nnBuild]
  | succ n ih =>
      intro cur remaining
      rw [nnBuild]
      cases hp : pickMin (nearerTo cur) remaining with
      | none =>
          have hr := pickMin_eq_none hp
          subst hr
          simp
      | some val =>
          obtain ⟨b, rest⟩ := val
          have hmap := (pickMin_perm hp).map Prod.fst
          exact ((ih b.2 rest).cons b.1).trans hmap

lemma nearestNeighborRoute_perm (pads : List Pad) :
    (nearestNeighborRoute pads).Perm (List.range pads.length) := by
  rw [nearestNeighborRoute]
  cases hp : pickMin startBetter pads.enum with
  | none =>
      have h := pickMin_eq_none hp
      have hnil : pads = [] := by
        cases pads with
        | nil => rfl
        | cons a l => simp [List.enum] at h
      subst hnil
      simp
  | some val =>
      obtain ⟨b, rest⟩ := val
      have hmap := (pickMin_perm hp).map Prod.fst
      rw [List.enum_map_fst] at hmap
      exact ((nnBuild_perm pads.length b.2 rest).cons b.1).trans hmap

lemma reverseSegment_perm (route : List ℕ) {i j : ℕ} (hij : i ≤ j) :
    (reverseSegment route i j).Perm route := by
  rw [reverseSegment]
  have hdrop : (route.drop i).drop (j + 1 - i) = route.drop (j + 1) := by
    rw [List.drop_drop]
    congr 1
    omega
  rw [List.append_assoc]
  have h2 : (route.take i ++ (((route.drop i).take (j + 1 - i)).reverse
      ++ route.drop (j + 1))).Perm
      (route.take i ++ ((route.drop i).take (j + 1 - i) ++ route.drop (j + 1))) :=
    List.Perm.append_left _ (List.Perm.append_right _ (List.reverse_perm _))
  refine h2.trans ?_
  rw [← hdrop, List.take_append_drop, List.take_append_drop]

lemma allPairs_lt {n : ℕ} {p : ℕ × ℕ} (h : p ∈ allPairs n) : p.1 < p.2 := by
  rw [allPairs] at h
  have := List.of_mem_filter h
  simpa using this

lemma tryPairs_perm {pads : List Pad} {route r2 : List ℕ} :
    ∀ {pairs : List (ℕ × ℕ)}, (∀ p ∈ pairs, p.1 < p.2) →
      tryPairs pads route pairs = some r2 → r2.Perm route := by
  intro pairs
  induction pairs with
  | nil => intro _ h; cases h
  | cons ij rest ih =>
      intro hall h
      rw [tryPairs] at h
      by_cases hlt : pathLen pads (reverseSegment route ij.1 ij.2) < pathLen pads route
      · rw [if_pos hlt, Option.some.injEq] at h
        subst h
        exact reverseSegment_perm route (le_of_lt (hall ij (List.mem_cons_self _ _)))
      · rw [if_neg hlt] at h
        exact ih (fun p hp => hall p (List.mem_cons_of_mem _ hp)) h

lemma twoOptLoop_perm (pads : List Pad) :
    ∀ (fuel : ℕ) (route : List ℕ), (twoOptLoop pads route fuel).Perm route := by
  intro fuel
  induction fuel with
  | zero =>
      intro route
      rw [twoOptLoop]
  | succ n ih =>
      intro route
      rw [twoOptLoop]
      cases ht : tryPairs pads route (allPairs route.length) with
      | none => exact List.Perm.refl _
      | some r2 =>
          have hperm := tryPairs_perm (fun p hp => allPairs_lt hp) ht
          exact (ih r2).trans hperm

lemma twoOptLoop_of_no_improvement {pads : List Pad} {route : List ℕ}
    (h : tryPairs pads route (allPairs route.length) = none) :
    ∀ fuel, twoOptLoop pads route fuel = route := by
  intro fuel
  cases fuel with
  | zero => rw [twoOptLoop]
  | succ n => rw [twoOptLoop, h]

lemma optimizePadsSpec_perm (pads : List Pad) :
    (optimizePadsSpec pads).Perm (List.range pads.length) :=
  (twoOptLoop_perm pads twoOptCap (nearestNeighborRoute pads)).trans
    (nearestNeighborRoute_perm pads)

/-- C6 counterexample: the route optimizer is not applied between collection
and rendering.  On the concrete two-pad list with positions (0,10) and (0,0),
the spec-modelled optimizer visits pad 1 first (lowest y), giving route
[1, 0], while main() hands pads to the printer in collection order [0, 1]. -/
theorem c6_optimizer_not_applied_counterexample :
    renderIndices [⟨0, 10, 0, 0⟩, ⟨0, 0, 0, 0⟩] = [0, 1] ∧
    optimizePadsSpec [⟨0, 10, 0, 0⟩, ⟨0, 0, 0, 0⟩] = [1, 0] ∧
    ([0, 1] : List ℕ) ≠ [1, 0] := by
  refine ⟨rfl, ?_, by decide⟩
  have hsb : startBetter (⟨0, 0, 0, 0⟩ : Pad) (⟨0, 10, 0, 0⟩ : Pad) = true := by
    rw [startBetter]
    simp only [decide_eq_true_eq]
    norm_num
  have hpick : pickMin startBetter [((0 : ℕ), (⟨0, 10, 0, 0⟩ : Pad)), (1, ⟨0, 0, 0, 0⟩)]
      = some ((1, ⟨0, 0, 0, 0⟩), [(0, ⟨0, 10, 0, 0⟩)]) := by
    rw [pickMin]
    rw [show pickMin startBetter [((1 : ℕ), (⟨0, 0, 0, 0⟩ : Pad))]
        = some ((1, ⟨0, 0, 0, 0⟩), []) from rfl]
    simp [hsb]
  have hnn : nearestNeighborRoute [(⟨0, 10, 0, 0⟩ : Pad), ⟨0, 0, 0, 0⟩] = [1, 0] := by
    rw [nearestNeighborRoute]
    rw [show ([(⟨0, 10, 0, 0⟩ : Pad), ⟨0, 0, 0, 0⟩].enum)
        = [((0 : ℕ), (⟨0, 10, 0, 0⟩ : Pad)), (1, ⟨0, 0, 0, 0⟩)] from rfl]
    rw [hpick]
    rfl
  have hlen : pathLen [(⟨0, 10, 0, 0⟩ : Pad), ⟨0, 0, 0, 0⟩] [0, 1]
      = pathLen [(⟨0, 10, 0, 0⟩ : Pad), ⟨0, 0, 0, 0⟩] [1, 0] := by
    norm_num [pathLen, padAt, padDist, dist2]
  have hnolt : ¬ pathLen [(⟨0, 10, 0, 0⟩ : Pad), ⟨0, 0, 0, 0⟩]
      (reverseSegment [1, 0] 0 1)
      < pathLen [(⟨0, 10, 0, 0⟩ : Pad), ⟨0, 0, 0, 0⟩] [1, 0] := by
    rw [show reverseSegment [1, 0] 0 1 = [0, 1] from rfl, hlen]
    exact lt_irrefl _
  have hnone : tryPairs [(⟨0, 10, 0, 0⟩ : Pad), ⟨0, 0, 0, 0⟩] [1, 0] (allPairs 2) = none := by
    rw [show allPairs 2 = [((0 : ℕ), (1 : ℕ))] from rfl]
    simp only [tryPairs]
    rw [if_neg hnolt]
  rw [optimizePadsSpec, hnn]
  exact twoOptLoop_of_no_improvement hnone twoOptCap

/-- C6 (amended): `OptimizePads` is only declared, never invoked — main()
renders the accepted pads in collection order, the identity permutation of
indices 0..n−1, so every accepted index is visited exactly once; and the
spec-modelled optimizer output is likewise a permutation of 0..n−1 for
every pad count. -/
theorem c6_render_and_optimizer_permutation (pads : List Pad) :
    renderIndices pads = List.range pads.length ∧
    (optimizePadsSpec pads).Perm (List.range pads.length) :=
  ⟨rfl, optimizePadsSpec_perm pads⟩
